import Mathlib

/-!
# Cahn-Hilliard: the driver `main` and the solver interface

Shallow embedding of `src/C/src/main.c` (the program that drives the solver and
draws its field) and of the interface declared in `src/C/inc/cpu/solver.h`.

Conventions of the embedding:

* `double` and `float` values are exact rationals (`ℚ`); rounding is not modelled.
* `int` is 32-bit two's complement: every `int` operation is followed by `wrapInt`.
* functions of other translation units and libraries (`rand`, `clock`, GLFW, the
  solver) are answered by an environment `Env`; every call is recorded in a trace.
* the macros `N_DISCR` and `TIMESTEP` come from a header that is not part of the
  sources at hand and are parameters (`Config`).
-/

namespace CahnHilliard

/-! ## Machine integers and loops -/

/-- C `int`: the representative of `x` in `[-2^31, 2^31)`. -/
def wrapInt (x : Int) : Int := (x + 2147483648) % 4294967296 - 2147483648

/-- Conversion of an `int` to `GLuint` (unsigned 32 bit). -/
def toGLuint (x : Int) : Nat := (x % 4294967296).toNat

/-- The loop `for (int i = 0; i < n; i++) body(i)` as a state transformer. -/
def forLoop {σ : Type} (n : Nat) (body : Nat → σ → σ) (s : σ) : σ :=
  (List.range n).foldl (fun acc i => body i acc) s

/-! ## Configuration and environment of `main` -/

/-- Build-time constants used by `main.c`. -/
structure Config where
  /-- Macro `N_DISCR`: number of grid points per direction, an `int` constant. -/
  N_DISCR : Nat
  /-- Macro `TIMESTEP`. -/
  TIMESTEP : ℚ

/-- Answers of the outside world to the calls made by `main`. -/
structure Env where
  /-- Library constant `RAND_MAX`. -/
  RAND_MAX : Nat
  /-- Value returned by the `n`-th call of `rand()`. -/
  rand : Nat → Nat
  /-- Library constant `CLOCKS_PER_SEC`. -/
  CLOCKS_PER_SEC : Nat
  /-- Value returned by the `n`-th call of `clock()`. -/
  clock : Nat → Int
  /-- Value returned by the `n`-th call of `glfwWindowShouldClose(window)`. -/
  windowShouldClose : Nat → Bool
  /-- Whether `glfwGetKey(window, GLFW_KEY_ESCAPE) == GLFW_PRESS` in frame `n`. -/
  escPressed : Nat → Bool
  /-- Field that `getSolution` writes to its argument after `n` calls of `step`. -/
  solution : Nat → List ℚ
  /-- Content of the automatic variable `cpu_time` at its declaration
  (`double cpu_time;` has no initialiser). -/
  cpu_time0 : ℚ

/-- Calls of `main` to other translation units and libraries that the model records. -/
inductive Call where
  | init_window
  | init_shaders
  | init_solver (c : List (Option ℚ)) (dt : ℚ)
  | glfwWindowShouldClose
  | clock
  | step (dt : ℚ)
  | getSolution
  | glfwPollEvents
  | glfwGetKey
  | glfwSetWindowShouldClose
  | glfwSwapBuffers
  | glDrawElements (count : Int)
  | printf (t : Int) (time : ℚ) (avg : ℚ)
  | glfwDestroyWindow
  | glfwTerminate
  | free_shaders
  | free_solver
  deriving DecidableEq

/-- The calls into the solver (`solver.h`). -/
def Call.isSolver : Call → Bool
  | .init_solver _ _ => true
  | .step _ => true
  | .getSolution => true
  | .free_solver => true
  | _ => false

/-- The solver calls of a trace, in order. -/
def solverCalls (tr : List Call) : List Call := tr.filter Call.isSolver

/-! ## The element buffer (`main.c`, lines 52-63) -/

/-- Body of the element loop for cell `(i, j)`: the four stores
`elements[slot] = value`, as `(slot, value)` in program order. -/
def elementsCell (N : Nat) (i j : Nat) : List (Int × Nat) :=
  let ind : Int := wrapInt (wrapInt ((i : Int) * (N : Int)) + (j : Int))
  let ind_ : Int := wrapInt (wrapInt ((i : Int) * wrapInt ((N : Int) - 1)) + (j : Int))
  [ (wrapInt (4 * ind_), toGLuint ind),
    (wrapInt (wrapInt (4 * ind_) + 1), toGLuint (wrapInt (ind + 1))),
    (wrapInt (wrapInt (4 * ind_) + 2), toGLuint (wrapInt (ind + (N : Int)))),
    (wrapInt (wrapInt (4 * ind_) + 3), toGLuint (wrapInt (wrapInt (ind + (N : Int)) + 1))) ]

/-- The element loop: all stores into `elements`, in program order. -/
def elementsLoop (N : Nat) : List (Int × Nat) :=
  forLoop (wrapInt ((N : Int) - 1)).toNat
    (fun i w => forLoop (wrapInt ((N : Int) - 1)).toNat (fun j w => w ++ elementsCell N i j) w) []

/-- Number of element indices handed to `glBufferData` and `glDrawElements`:
`4*(N_DISCR-1)*(N_DISCR-1)`. -/
def elementCount (N : Nat) : Int :=
  wrapInt (wrapInt (4 * wrapInt ((N : Int) - 1)) * wrapInt ((N : Int) - 1))

/-! ## Colours (`main.c`, lines 84-90 and 125-134) -/

/-- Colour at start-up: `(c[ind] + 1.0)/2.0`. -/
def colourInit (c : ℚ) : ℚ := (c + 1) / 2

/-- Upper end of the colour scale in the render loop: `double c_max = 1.0`. -/
def c_max : ℚ := 1

/-- Lower end of the colour scale in the render loop: `double c_min = -1.0`. -/
def c_min : ℚ := -1

/-- Colour in the render loop: `(c[i] - c_min) / (c_max - c_min)`. -/
def colourRender (c : ℚ) : ℚ := (c - c_min) / (c_max - c_min)

/-! ## The program `main` -/

/-- Local variables of `main`, counters of the environment, and the trace. -/
structure MainState where
  /-- `int t`: number of steps taken. -/
  t : Int
  /-- `int skip`. -/
  skip : Int
  /-- `double dt`. -/
  dt : ℚ
  /-- Buffer `c`; `none` is a cell that was never written since `malloc`. -/
  c : List (Option ℚ)
  /-- Buffer `colors`. -/
  colors : List (Option ℚ)
  /-- `double cpu_time`. -/
  cpu_time : ℚ
  /-- `clock_t begin`. -/
  clkBegin : Int
  /-- `clock_t end`. -/
  clkEnd : Int
  /-- Number of calls of `rand()` so far. -/
  rands : Nat
  /-- Number of calls of `clock()` so far. -/
  clocks : Nat
  /-- Number of calls of `step` so far. -/
  steps : Nat
  /-- Number of completed iterations of the window loop. -/
  frames : Nat
  /-- Calls made so far, oldest first. -/
  trace : List Call
  deriving DecidableEq

/-- Records a call. -/
def MainState.emit (s : MainState) (e : Call) : MainState :=
  { s with trace := s.trace ++ [e] }

/-- Value of the `int` expression `N_DISCR*N_DISCR`, as a count: the number of cells
of the buffers `c` and `colors` and the bound of the loops over them. -/
def fieldCount (N : Nat) : Nat := (wrapInt ((N : Int) * (N : Int))).toNat

/-- Lines 74-77: `malloc` of `c` and the loop
`c[i] = .2*((double)rand() / (double)RAND_MAX) - .1`. -/
def fillInitial (cfg : Config) (env : Env) (s : MainState) : MainState :=
  forLoop (fieldCount cfg.N_DISCR)
    (fun i s =>
      { s with
        c := s.c.set i (some ((2 / 10 : ℚ) * ((env.rand s.rands : ℚ) / (env.RAND_MAX : ℚ)) - 1 / 10))
        rands := s.rands + 1 })
    { s with c := List.replicate (fieldCount cfg.N_DISCR) none }

/-- Lines 84-90: `malloc` of `colors` and the loop `colors[ind] = (c[ind] + 1.0)/2.0`. -/
def fillColours (cfg : Config) (s : MainState) : MainState :=
  let n : Nat := cfg.N_DISCR
  forLoop n
    (fun i s => forLoop n
      (fun j s =>
        let ind : Int := wrapInt (wrapInt ((i : Int) * (n : Int)) + (j : Int))
        { s with colors := s.colors.set ind.toNat ((s.c.getD ind.toNat none).map colourInit) })
      s)
    { s with colors := List.replicate (fieldCount cfg.N_DISCR) none }

/-- Lines 16-101: everything before the window loop. The creation of the OpenGL buffers
(lines 22-66 and 80-98) touches none of the variables and calls recorded here; its
element loop is `elementsLoop`. -/
def setup (cfg : Config) (env : Env) : MainState :=
  let s : MainState :=
    { t := 0, skip := 10, dt := cfg.TIMESTEP, c := [], colors := [],
      cpu_time := env.cpu_time0, clkBegin := 0, clkEnd := 0,
      rands := 0, clocks := 0, steps := 0, frames := 0,
      trace := [Call.init_window, Call.init_shaders] }
  let s := fillInitial cfg env s
  let s := s.emit (Call.init_solver s.c s.dt)
  fillColours cfg s

/-- Lines 106-109: `for (int i = 0; i < skip; i++) { step(dt); t++; }`. -/
def stepBatch (s : MainState) : MainState :=
  forLoop s.skip.toNat
    (fun _ s => { s.emit (Call.step s.dt) with t := wrapInt (s.t + 1), steps := s.steps + 1 }) s

/-- Lines 132-134: `colors[i] = (c[i] - c_min) / (c_max - c_min)`. -/
def updateColours (cfg : Config) (s : MainState) : MainState :=
  forLoop (fieldCount cfg.N_DISCR)
    (fun i s => { s with colors := s.colors.set i ((s.c.getD i none).map colourRender) }) s

/-- Line 105: `begin = clock();`. -/
def readBegin (env : Env) (s : MainState) : MainState :=
  { s with clkBegin := env.clock s.clocks, clocks := s.clocks + 1, trace := s.trace ++ [Call.clock] }

/-- Line 110: `getSolution(c);`. -/
def readSolution (env : Env) (s : MainState) : MainState :=
  { s with c := (env.solution s.steps).map some, trace := s.trace ++ [Call.getSolution] }

/-- Line 111: `end = clock();`. -/
def readEnd (env : Env) (s : MainState) : MainState :=
  { s with clkEnd := env.clock s.clocks, clocks := s.clocks + 1, trace := s.trace ++ [Call.clock] }

/-- Lines 114-117: `glfwPollEvents()` and the test of the escape key. -/
def pollInput (env : Env) (s : MainState) : MainState :=
  { s with trace := s.trace ++ [Call.glfwPollEvents, Call.glfwGetKey]
      ++ (if env.escPressed s.frames then [Call.glfwSetWindowShouldClose] else []) }

/-- Lines 121-137: swap of the buffers, update of the colours, drawing. -/
def render (cfg : Config) (s : MainState) : MainState :=
  (updateColours cfg (s.emit Call.glfwSwapBuffers)).emit
    (Call.glDrawElements (elementCount cfg.N_DISCR))

/-- Line 141: `cpu_time += (double)(end - begin) / CLOCKS_PER_SEC*1e3;`. -/
def addCpuTime (env : Env) (s : MainState) : MainState :=
  { s with
    cpu_time := s.cpu_time + ((s.clkEnd - s.clkBegin : Int) : ℚ) / (env.CLOCKS_PER_SEC : ℚ) * 1000 }

/-- Line 142: `printf(..., t, t*dt, cpu_time/t);`, the last statement of the loop body,
after which the iteration counts as completed. -/
def printStatus (s : MainState) : MainState :=
  { s with
    trace := s.trace ++ [Call.printf s.t ((s.t : ℚ) * s.dt) (s.cpu_time / (s.t : ℚ))]
    frames := s.frames + 1 }

/-- Lines 104-143: one iteration of the window loop (after its test succeeded). -/
def frame (cfg : Config) (env : Env) (s : MainState) : MainState :=
  printStatus (addCpuTime env (render cfg (pollInput env
    (readEnd env (readSolution env (stepBatch (readBegin env s)))))))

/-- Lines 103-156: `while (!glfwWindowShouldClose(window)) { ... }`; `none` when the
fuel is used up before the window closes. -/
def windowLoop (cfg : Config) (env : Env) : Nat → MainState → Option MainState
  | 0, _ => none
  | fuel + 1, s =>
    let s := s.emit Call.glfwWindowShouldClose
    if env.windowShouldClose s.frames then some s
    else windowLoop cfg env fuel (frame cfg env s)

/-- Lines 158-174: release of all resources. -/
def shutdown (s : MainState) : MainState :=
  (((s.emit Call.glfwDestroyWindow).emit Call.glfwTerminate).emit Call.free_shaders).emit
    Call.free_solver

/-- The program `main`, run with the given fuel for the window loop. -/
def main (cfg : Config) (env : Env) (fuel : Nat) : Option MainState :=
  (windowLoop cfg env fuel (setup cfg env)).map shutdown

/-! ## Auxiliary definitions used in the statements about `main` -/

/-- Value of `t` after `n` executions of `t++`. -/
def bumpT (n : Nat) (t : Int) : Int := (fun x => wrapInt (x + 1))^[n] t

/-- Value stored in `c[i]` by the initialisation loop: the `i`-th call of `rand()` is the
one made for cell `i`. -/
def initialSample (env : Env) (i : Nat) : ℚ :=
  (2 / 10 : ℚ) * ((env.rand i : ℚ) / (env.RAND_MAX : ℚ)) - 1 / 10

/-- The buffer handed to `init_solver`. -/
def initialField (cfg : Config) (env : Env) : List (Option ℚ) :=
  (List.range (fieldCount cfg.N_DISCR)).map (fun i => some (initialSample env i))

/-- The solver calls of one frame: `skip = 10` calls of `step`, then `getSolution`. -/
def frameCalls (dt : ℚ) : List Call := List.replicate 10 (Call.step dt) ++ [Call.getSolution]

/-- Calls of one frame that follow `getSolution` and the second `clock()`. -/
def frameTail (cfg : Config) (env : Env) (s : MainState) : List Call :=
  [Call.glfwPollEvents, Call.glfwGetKey]
    ++ (if env.escPressed s.frames then [Call.glfwSetWindowShouldClose] else [])
    ++ [Call.glfwSwapBuffers, Call.glDrawElements (elementCount cfg.N_DISCR),
        Call.printf (bumpT s.skip.toNat s.t) ((bumpT s.skip.toNat s.t : ℚ) * s.dt)
          ((s.cpu_time + ((env.clock (s.clocks + 1) - env.clock s.clocks : Int) : ℚ)
              / (env.CLOCKS_PER_SEC : ℚ) * 1000) / (bumpT s.skip.toNat s.t : ℚ))]

/-- The status prints among the calls. -/
def Call.isPrintf : Call → Bool
  | .printf _ _ _ => true
  | _ => false

/-- Measured duration of frame `i` in milliseconds: `(end - begin) / CLOCKS_PER_SEC * 1000`,
where `begin` and `end` are the two readings of `clock()` in that frame. -/
def frameDuration (env : Env) (i : Nat) : ℚ :=
  ((env.clock (2 * i + 1) - env.clock (2 * i) : Int) : ℚ) / (env.CLOCKS_PER_SEC : ℚ) * 1000

/-- The status print at the end of frame `f` (frames are counted from 0), as the program
computes it: `cpu_time` is its initial content plus the durations of the frames so far. -/
def printedStatus (cfg : Config) (env : Env) (f : Nat) : Call :=
  Call.printf (bumpT (10 * (f + 1)) 0) ((bumpT (10 * (f + 1)) 0 : ℚ) * cfg.TIMESTEP)
    ((env.cpu_time0 + Finset.sum (Finset.range (f + 1)) (frameDuration env))
      / (bumpT (10 * (f + 1)) 0 : ℚ))

/-- What holds of the state of `main` at every test of the window loop. -/
structure LoopInv (cfg : Config) (env : Env) (s : MainState) : Prop where
  skip_eq : s.skip = 10
  dt_eq : s.dt = cfg.TIMESTEP
  clocks_eq : s.clocks = 2 * s.frames
  t_eq : s.t = bumpT (10 * s.frames) 0
  cpu_eq : s.cpu_time = env.cpu_time0 + Finset.sum (Finset.range s.frames) (frameDuration env)
  calls_eq : solverCalls s.trace
    = Call.init_solver (initialField cfg env) cfg.TIMESTEP
        :: (List.replicate s.frames (frameCalls cfg.TIMESTEP)).flatten
  prints_eq : s.trace.filter Call.isPrintf = (List.range s.frames).map (printedStatus cfg env)

/-- A configuration for the run in `uninitEnv`. -/
def uninitCfg : Config := { N_DISCR := 2, TIMESTEP := 1 / 100 }

/-- A run of one frame in which `clock()` always returns 0 and the automatic variable
`cpu_time` holds 1 when it is declared. -/
def uninitEnv : Env :=
  { RAND_MAX := 32767, rand := fun _ => 0, CLOCKS_PER_SEC := 1000000, clock := fun _ => 0,
    windowShouldClose := fun n => decide (1 ≤ n), escPressed := fun _ => false,
    solution := fun _ => [0, 0, 0, 0], cpu_time0 := 1 }

/-! ## The solver behind `solver.h`

`solver.h` declares `init_solver`, `step`, `imex`, `etdrk4`, `non_linear_term`,
`getSolution` and `free_solver`; the file that implements them is not among the sources.
The definitions of this section follow the specification (§3, §4). They work over an
arbitrary field `K` (exact arithmetic); the discrete Fourier transform, which the
implementation takes from FFTW, is written out with a root of unity `root` of order `N`.
A spectral field is indexed by the full `N × N` grid of modes; the half-grid layout of the
real-input transform stores the same modes once. -/

/-- Scheme tags (`solver.h`, lines 11-14). -/
inductive SOLVER_TYPE where
  | IMEX
  | ETDRK4
  deriving DecidableEq

/-- A field on the grid, in physical space (sample `(m, n)`) or in Fourier space
(mode `(p, q)`); only indices below `N` are meaningful. -/
abbrev Grid (K : Type) := Nat → Nat → K

/-- Modelled from the spec: the configuration of the absent solver, namely the grid size
`N`, the configured scheme, the root of unity of the transform engine, the exponential
function, and the contour-integral coefficient functions `f1`, `f2`, `f3` of `(L, dt)`
(whose formulas the specification does not give). -/
structure Backend (K : Type) where
  /-- Grid size. -/
  N : Nat
  /-- Configured scheme. -/
  scheme : SOLVER_TYPE
  /-- Root of unity of order `N` used by the forward transform. -/
  root : K
  /-- The exponential function. -/
  exp : K → K
  /-- From `(L, dt)` to the coefficient `f1`. -/
  f1 : K → K → K
  /-- From `(L, dt)` to the coefficient `f2`. -/
  f2 : K → K → K
  /-- From `(L, dt)` to the coefficient `f3`. -/
  f3 : K → K → K

section Solver

variable {K : Type} [Field K]

/-- Modelled from the spec: the forward transform of the absent Spectral Transform Engine
(§4.1), the unnormalised discrete Fourier transform. -/
def forward (B : Backend K) (f : Grid K) : Grid K := fun p q =>
  ∑ m ∈ Finset.range B.N, ∑ n ∈ Finset.range B.N, f m n * B.root ^ (p * m + q * n)

/-- Modelled from the spec: the inverse transform of the absent Spectral Transform Engine
(§4.1), with the normalisation by `N²`. -/
def inverse (B : Backend K) (g : Grid K) : Grid K := fun m n =>
  (∑ p ∈ Finset.range B.N, ∑ q ∈ Finset.range B.N, g p q * B.root⁻¹ ^ (p * m + q * n))
    / ((B.N : K) * (B.N : K))

/-- Modelled from the spec: the wavenumber of grid index `p` in the standard periodic
ordering (§3): non-negative frequencies first, then the negative ones. -/
def wavenumber (N p : Nat) : Int := if 2 * p < N then (p : Int) else (p : Int) - (N : Int)

/-- Modelled from the spec: squared wavenumber magnitude `kx² + ky²` of mode `(p, q)`. -/
def waveSq (B : Backend K) (p q : Nat) : K :=
  ((wavenumber B.N p : Int) : K) ^ 2 + ((wavenumber B.N q : Int) : K) ^ 2

/-- Modelled from the spec: the linear operator coefficient (§3),
`L(kx,ky) = -(kx²+ky²)·((kx²+ky²) - 1)`. -/
def linearCoeff (B : Backend K) : Grid K := fun p q => -(waveSq B p q) * (waveSq B p q - 1)

/-- Modelled from the spec: the Nonlinear Term Evaluator on a physical-space field
(§4.2): cube pointwise, forward-transform, scale each mode by its squared wavenumber
magnitude. -/
def nonlinearTerm (B : Backend K) (c : Grid K) : Grid K := fun p q =>
  waveSq B p q * forward B (fun m n => c m n ^ 3) p q

/-- Modelled from the spec: `non_linear_term` of `solver.h`, from a spectral field to a
spectral field (§4.4): inverse transform to physical space, then the evaluator of §4.2. -/
def non_linear_term (B : Backend K) (c_hat : Grid K) : Grid K :=
  nonlinearTerm B (inverse B c_hat)

/-- Modelled from the spec: the Solver State (§3). -/
structure SolverState (K : Type) where
  /-- Field in physical space. -/
  c : Grid K
  /-- Field in Fourier space. -/
  c_hat : Grid K
  /-- Linear operator coefficients. -/
  L : Grid K
  /-- Table of `exp(L·dt/2)`. -/
  E2 : Grid K
  /-- Table of `exp(L·dt)`. -/
  E : Grid K
  /-- Table of `f1`. -/
  F1 : Grid K
  /-- Table of `f2`. -/
  F2 : Grid K
  /-- Table of `f3`. -/
  F3 : Grid K

/-- Modelled from the spec: `init_solver` (§4.5): copies the initial field, transforms it,
and precomputes `L` and, for ETDRK4, the integrating-factor coefficients for `dt`. -/
def init_solver (B : Backend K) (c0 : Grid K) (dt : K) : SolverState K :=
  match B.scheme with
  | SOLVER_TYPE.IMEX =>
    { c := c0, c_hat := forward B c0, L := linearCoeff B,
      E2 := fun _ _ => 0, E := fun _ _ => 0, F1 := fun _ _ => 0, F2 := fun _ _ => 0,
      F3 := fun _ _ => 0 }
  | SOLVER_TYPE.ETDRK4 =>
    { c := c0, c_hat := forward B c0, L := linearCoeff B,
      E2 := fun p q => B.exp (linearCoeff B p q * dt / 2),
      E := fun p q => B.exp (linearCoeff B p q * dt),
      F1 := fun p q => B.f1 (linearCoeff B p q) dt,
      F2 := fun p q => B.f2 (linearCoeff B p q) dt,
      F3 := fun p q => B.f3 (linearCoeff B p q) dt }

/-- Modelled from the spec: `imex` (§4.3): per mode
`c_hat_new = (c_hat_old + dt · N_hat_old) / (1 - dt · L)`, then the physical-space field
is refreshed by the inverse transform. -/
def imex (B : Backend K) (s : SolverState K) (dt : K) : SolverState K :=
  let N_hat : Grid K := nonlinearTerm B s.c
  let c_new : Grid K := fun p q => (s.c_hat p q + dt * N_hat p q) / (1 - dt * s.L p q)
  { s with c_hat := c_new, c := inverse B c_new }

/-- Modelled from the spec: `etdrk4` (§4.4), the four stages with the precomputed
coefficients, then the physical-space field is refreshed by the inverse transform. -/
def etdrk4 (B : Backend K) (s : SolverState K) (dt : K) : SolverState K :=
  let Nc : Grid K := non_linear_term B s.c_hat
  let a : Grid K := fun p q => s.E2 p q * s.c_hat p q + dt / 2 * s.F1 p q * Nc p q
  let Na : Grid K := non_linear_term B a
  let b : Grid K := fun p q => s.E2 p q * s.c_hat p q + dt / 2 * s.F1 p q * Na p q
  let Nb : Grid K := non_linear_term B b
  let c' : Grid K := fun p q => s.E2 p q * a p q + dt / 2 * s.F1 p q * (2 * Nb p q - Nc p q)
  let Nc' : Grid K := non_linear_term B c'
  let c_new : Grid K := fun p q =>
    s.E p q * s.c_hat p q
      + dt * (s.F1 p q * Nc p q + 2 * s.F2 p q * (Na p q + Nb p q) + s.F3 p q * Nc' p q)
  { s with c_hat := c_new, c := inverse B c_new }

/-- Modelled from the spec: `step` (§4.5) dispatches to the configured scheme. -/
def step (B : Backend K) (s : SolverState K) (dt : K) : SolverState K :=
  match B.scheme with
  | SOLVER_TYPE.IMEX => imex B s dt
  | SOLVER_TYPE.ETDRK4 => etdrk4 B s dt

/-- Modelled from the spec: `getSolution` (§4.5): the current physical-space field. -/
def getSolution (s : SolverState K) : Grid K := s.c

/-- The state after `init_solver c0 dt0` and one call of `step` for each entry of `dts`. -/
def solverRun (B : Backend K) (c0 : Grid K) (dt0 : K) (dts : List K) : SolverState K :=
  dts.foldl (step B) (init_solver B c0 dt0)

/-- Spatial mean of a field on the grid. -/
def mean (B : Backend K) (f : Grid K) : K :=
  (∑ m ∈ Finset.range B.N, ∑ n ∈ Finset.range B.N, f m n) / ((B.N : K) * (B.N : K))

/-- What `init_solver` establishes and every `step` keeps: the table `L` holds the linear
coefficients, and for ETDRK4 the table of `exp(L·dt)` holds `exp 0` at the zero mode. -/
structure Tables (B : Backend K) (s : SolverState K) : Prop where
  L_eq : s.L = linearCoeff B
  E_zero : B.scheme = SOLVER_TYPE.ETDRK4 → s.E 0 0 = B.exp 0

/-- A state whose physical-space field vanishes on the grid and whose spectral field
vanishes. -/
def ZeroState (B : Backend K) (s : SolverState K) : Prop :=
  (∀ m n, m < B.N → n < B.N → s.c m n = 0) ∧ ∀ p q, s.c_hat p q = 0

end Solver

/-- A solver configuration over `ℚ` on the 2 × 2 grid, with the root of unity `-1`. -/
def sampleBackend (scheme : SOLVER_TYPE) : Backend ℚ :=
  { N := 2, scheme := scheme, root := -1, exp := fun x => 1 + x,
    f1 := fun _ _ => 1, f2 := fun _ _ => 1, f3 := fun _ _ => 1 }

/-! ## Lemmas on machine integers and loops -/

theorem wrapInt_eq_self {x : Int} (h1 : -2147483648 ≤ x) (h2 : x < 2147483648) :
    wrapInt x = x := by
  unfold wrapInt
  omega

theorem wrapInt_natCast {n : Nat} (h : n ≤ 2147483647) : wrapInt (n : Int) = n := by
  unfold wrapInt
  omega

theorem toGLuint_natCast {n : Nat} (h : n ≤ 2147483647) : toGLuint (n : Int) = n := by
  unfold toGLuint
  omega

theorem forLoop_zero {σ : Type} (body : Nat → σ → σ) (s : σ) : forLoop 0 body s = s := by
  simp [forLoop]

theorem forLoop_succ {σ : Type} (n : Nat) (body : Nat → σ → σ) (s : σ) :
    forLoop (n + 1) body s = body n (forLoop n body s) := by
  simp [forLoop, List.range_succ, List.foldl_append]

/-- A loop that only appends to a list produces the concatenation of what its
iterations append. -/
theorem forLoop_append {α : Type} (n : Nat) (f : Nat → List α) (w : List α) :
    forLoop n (fun i acc => acc ++ f i) w = w ++ (List.range n).flatMap f := by
  induction n with
  | zero => simp [forLoop_zero]
  | succ n ih => simp [forLoop_succ, ih, List.range_succ, List.flatMap_append]

/-! ## The element buffer -/

/-- Index bounds of cell `(i, j)` on a grid with `m + 1` points per direction. -/
theorem cell_bounds (m i j : Nat) (hi : i < m) (hj : j < m) :
    i * (m + 1) + j + (m + 1) + 1 < (m + 1) * (m + 1) ∧
    4 * (i * m + j) + 3 < 4 * m * m ∧
    (m + 1) * (m + 1) ≤ 4 * m * m := by
  have h1 : (i + 1) * m ≤ m * m := Nat.mul_le_mul_right m hi
  have h2 : 1 * m ≤ m * m := Nat.mul_le_mul_right m (by omega)
  refine ⟨?_, ?_, ?_⟩ <;> nlinarith

/-- The stores of cell `(i, j)` when no `int` operation overflows; `m = N_DISCR - 1`. -/
theorem elementsCell_exact (m i j : Nat) (hfit : 4 * m * m ≤ 2147483647)
    (hi : i < m) (hj : j < m) :
    elementsCell (m + 1) i j =
      [ (((4 * (i * m + j) : Nat) : Int), i * (m + 1) + j),
        (((4 * (i * m + j) + 1 : Nat) : Int), i * (m + 1) + j + 1),
        (((4 * (i * m + j) + 2 : Nat) : Int), i * (m + 1) + j + (m + 1)),
        (((4 * (i * m + j) + 3 : Nat) : Int), i * (m + 1) + j + (m + 1) + 1) ] := by
  obtain ⟨b1, b2, b3⟩ := cell_bounds m i j hi hj
  have c1 : i * (m + 1) + j + (m + 1) + 1 ≤ 2147483647 := le_trans (le_trans b1.le b3) hfit
  have c2 : 4 * (i * m + j) + 3 ≤ 2147483647 := le_trans b2.le hfit
  clear hfit b1 b2 b3 hi hj
  have n0 : m ≤ i * (m + 1) + j + (m + 1) + 1 := by omega
  have n1 : i * (m + 1) ≤ i * (m + 1) + j + (m + 1) + 1 := by omega
  have n2 : i * (m + 1) + j ≤ i * (m + 1) + j + (m + 1) + 1 := by omega
  have n3 : i * (m + 1) + j + 1 ≤ i * (m + 1) + j + (m + 1) + 1 := by omega
  have n4 : i * (m + 1) + j + (m + 1) ≤ i * (m + 1) + j + (m + 1) + 1 := by omega
  have k1 : i * m ≤ 4 * (i * m + j) + 3 := by omega
  have k2 : i * m + j ≤ 4 * (i * m + j) + 3 := by omega
  have k3 : 4 * (i * m + j) ≤ 4 * (i * m + j) + 3 := by omega
  have k4 : 4 * (i * m + j) + 1 ≤ 4 * (i * m + j) + 3 := by omega
  have k5 : 4 * (i * m + j) + 2 ≤ 4 * (i * m + j) + 3 := by omega
  have w : ∀ n : Nat, n ≤ i * (m + 1) + j + (m + 1) + 1 → wrapInt (n : Int) = n :=
    fun n hn => wrapInt_natCast (le_trans hn c1)
  have w' : ∀ n : Nat, n ≤ 4 * (i * m + j) + 3 → wrapInt (n : Int) = n :=
    fun n hn => wrapInt_natCast (le_trans hn c2)
  have g : ∀ n : Nat, n ≤ i * (m + 1) + j + (m + 1) + 1 → toGLuint (n : Int) = n :=
    fun n hn => toGLuint_natCast (le_trans hn c1)
  have e0 : wrapInt (((m + 1 : Nat) : Int) - 1) = (m : Int) := by
    have : ((m + 1 : Nat) : Int) - 1 = (m : Int) := by push_cast; ring
    rw [this]
    exact w m n0
  have e1 : wrapInt ((i : Int) * ((m + 1 : Nat) : Int)) = ((i * (m + 1) : Nat) : Int) := by
    rw [← Nat.cast_mul]
    exact w _ n1
  have e2 : wrapInt (((i * (m + 1) : Nat) : Int) + (j : Int)) = ((i * (m + 1) + j : Nat) : Int) := by
    rw [← Nat.cast_add]
    exact w _ n2
  have e3 : wrapInt ((i : Int) * (m : Int)) = ((i * m : Nat) : Int) := by
    rw [← Nat.cast_mul]
    exact w' _ k1
  have e4 : wrapInt (((i * m : Nat) : Int) + (j : Int)) = ((i * m + j : Nat) : Int) := by
    rw [← Nat.cast_add]
    exact w' _ k2
  have e5 : wrapInt (4 * ((i * m + j : Nat) : Int)) = ((4 * (i * m + j) : Nat) : Int) := by
    have : 4 * ((i * m + j : Nat) : Int) = ((4 * (i * m + j) : Nat) : Int) := by push_cast; ring
    rw [this]
    exact w' _ k3
  have e61 : wrapInt (((4 * (i * m + j) : Nat) : Int) + 1) = ((4 * (i * m + j) + 1 : Nat) : Int) := by
    have : ((4 * (i * m + j) : Nat) : Int) + 1 = ((4 * (i * m + j) + 1 : Nat) : Int) := by
      push_cast; ring
    rw [this]
    exact w' _ k4
  have e62 : wrapInt (((4 * (i * m + j) : Nat) : Int) + 2) = ((4 * (i * m + j) + 2 : Nat) : Int) := by
    have : ((4 * (i * m + j) : Nat) : Int) + 2 = ((4 * (i * m + j) + 2 : Nat) : Int) := by
      push_cast; ring
    rw [this]
    exact w' _ k5
  have e63 : wrapInt (((4 * (i * m + j) : Nat) : Int) + 3) = ((4 * (i * m + j) + 3 : Nat) : Int) := by
    have : ((4 * (i * m + j) : Nat) : Int) + 3 = ((4 * (i * m + j) + 3 : Nat) : Int) := by
      push_cast; ring
    rw [this]
    exact w' _ le_rfl
  have e71 : wrapInt (((i * (m + 1) + j : Nat) : Int) + 1) = ((i * (m + 1) + j + 1 : Nat) : Int) := by
    have : ((i * (m + 1) + j : Nat) : Int) + 1 = ((i * (m + 1) + j + 1 : Nat) : Int) := by
      push_cast; ring
    rw [this]
    exact w _ n3
  have e7m : wrapInt (((i * (m + 1) + j : Nat) : Int) + ((m + 1 : Nat) : Int))
      = ((i * (m + 1) + j + (m + 1) : Nat) : Int) := by
    rw [← Nat.cast_add]
    exact w _ n4
  have e7m1 : wrapInt (((i * (m + 1) + j + (m + 1) : Nat) : Int) + 1)
      = ((i * (m + 1) + j + (m + 1) + 1 : Nat) : Int) := by
    have : ((i * (m + 1) + j + (m + 1) : Nat) : Int) + 1
        = ((i * (m + 1) + j + (m + 1) + 1 : Nat) : Int) := by push_cast; ring
    rw [this]
    exact w _ le_rfl
  simp only [elementsCell, e0, e1, e2, e3, e4, e5, e61, e62, e63, e71, e7m, e7m1]
  rw [g _ n2, g _ n3, g _ n4, g _ le_rfl]

/-- Slots of one row of cells: consecutive groups of four are a run of `4 * n` slots. -/
theorem flatMap_four (a n : Nat) :
    (List.range n).flatMap (fun j => [4 * (a + j), 4 * (a + j) + 1, 4 * (a + j) + 2, 4 * (a + j) + 3])
      = (List.range (4 * n)).map (fun k => 4 * a + k) := by
  induction n with
  | zero => simp
  | succ n ih =>
    have h : 4 * (n + 1) = 4 * n + 1 + 1 + 1 + 1 := by ring
    rw [List.range_succ, List.flatMap_append, ih, h]
    simp only [List.range_succ, List.map_append, List.flatMap_cons, List.flatMap_nil,
      List.append_nil, List.map_cons, List.map_nil, List.append_assoc, List.singleton_append,
      List.cons_append, List.nil_append]
    congr 1
    simp only [List.cons.injEq, and_true]
    refine ⟨?_, ?_, ?_, ?_⟩ <;> ring

/-- Slots of `k` rows of `m` cells: the first `4 * k * m` slots in increasing order. -/
theorem flatMap_rows (m k : Nat) :
    (List.range k).flatMap
        (fun i => (List.range m).flatMap
          (fun j => [4 * (i * m + j), 4 * (i * m + j) + 1, 4 * (i * m + j) + 2, 4 * (i * m + j) + 3]))
      = List.range (4 * k * m) := by
  induction k with
  | zero => simp
  | succ k ih =>
    have h : 4 * (k + 1) * m = 4 * k * m + 4 * m := by ring
    rw [List.range_succ, List.flatMap_append, ih, h, List.range_add]
    simp only [List.flatMap_cons, List.flatMap_nil, List.append_nil]
    rw [flatMap_four]
    congr 1
    apply List.map_congr_left
    intro x _
    ring

/-- The loop bound `N_DISCR - 1` when it is computed without overflow. -/
theorem loopBound_eq (m : Nat) (hfit : 4 * m * m ≤ 2147483647) :
    (wrapInt (((m + 1 : Nat) : Int) - 1)).toNat = m := by
  have hm : m ≤ 2147483647 := by nlinarith
  have : ((m + 1 : Nat) : Int) - 1 = (m : Int) := by push_cast; ring
  rw [this, wrapInt_natCast hm]
  exact Int.toNat_natCast m

/-- The element loop is the concatenation of its cells, row by row. -/
theorem elementsLoop_eq (m : Nat) (hfit : 4 * m * m ≤ 2147483647) :
    elementsLoop (m + 1)
      = (List.range m).flatMap (fun i => (List.range m).flatMap (elementsCell (m + 1) i)) := by
  unfold elementsLoop
  rw [loopBound_eq m hfit]
  have inner : ∀ i : Nat, (fun (w : List (Int × Nat)) =>
      forLoop m (fun j w => w ++ elementsCell (m + 1) i j) w)
        = fun w => w ++ (List.range m).flatMap (elementsCell (m + 1) i) := by
    intro i
    funext w
    exact forLoop_append m _ w
  simp only [inner]
  rw [forLoop_append]
  simp

/-- Slots written by the element loop, in program order. -/
theorem elementsLoop_slots (m : Nat) (hfit : 4 * m * m ≤ 2147483647) :
    (elementsLoop (m + 1)).map Prod.fst = (List.range (4 * m * m)).map (fun k : Nat => (k : Int)) := by
  have hr : (List.range (4 * m * m)).map (fun k : Nat => (k : Int))
      = (List.range m).flatMap (fun i => (List.range m).flatMap
          (fun j => ([4 * (i * m + j), 4 * (i * m + j) + 1, 4 * (i * m + j) + 2,
            4 * (i * m + j) + 3] : List Nat).map (fun k : Nat => (k : Int)))) := by
    rw [← flatMap_rows m m, List.map_flatMap]
    apply List.flatMap_congr
    intro i _
    rw [List.map_flatMap]
  have hl : (elementsLoop (m + 1)).map Prod.fst
      = (List.range m).flatMap (fun i => (List.range m).flatMap
          (fun j => (elementsCell (m + 1) i j).map Prod.fst)) := by
    rw [elementsLoop_eq m hfit, List.map_flatMap]
    apply List.flatMap_congr
    intro i _
    rw [List.map_flatMap]
  rw [hr, hl]
  apply List.flatMap_congr
  intro i hi
  apply List.flatMap_congr
  intro j hj
  rw [elementsCell_exact m i j hfit (List.mem_range.mp hi) (List.mem_range.mp hj)]
  rfl

/-! ## Lemmas on `main` -/

theorem stepLoop_eq (n : Nat) (s : MainState) :
    forLoop n
        (fun _ s => { s.emit (Call.step s.dt) with t := wrapInt (s.t + 1), steps := s.steps + 1 }) s
      = { s with
          trace := s.trace ++ List.replicate n (Call.step s.dt)
          t := bumpT n s.t
          steps := s.steps + n } := by
  induction n with
  | zero => simp [forLoop_zero, bumpT]
  | succ n ih =>
    rw [forLoop_succ, ih]
    simp [MainState.emit, bumpT, Function.iterate_succ_apply', List.replicate_succ',
      Nat.add_assoc]

theorem stepBatch_eq (s : MainState) :
    stepBatch s = { s with
      trace := s.trace ++ List.replicate s.skip.toNat (Call.step s.dt)
      t := bumpT s.skip.toNat s.t
      steps := s.steps + s.skip.toNat } :=
  stepLoop_eq s.skip.toNat s

/-- A loop whose body only writes `colors` only changes `colors`. -/
theorem forLoop_colours (n : Nat) (f : Nat → MainState → List (Option ℚ)) (s : MainState) :
    ∃ X, forLoop n (fun i s => { s with colors := f i s }) s = { s with colors := X } := by
  induction n with
  | zero => exact ⟨s.colors, by simp [forLoop_zero]⟩
  | succ n ih =>
    obtain ⟨X, hX⟩ := ih
    exact ⟨_, by rw [forLoop_succ, hX]⟩

theorem updateColours_eq (cfg : Config) (s : MainState) :
    ∃ X, updateColours cfg s = { s with colors := X } :=
  forLoop_colours _ _ s

/-- Two nested loops whose body only writes `colors` only change `colors`. -/
theorem forLoop_colours2 (n m : Nat) (f : Nat → Nat → MainState → List (Option ℚ))
    (s : MainState) :
    ∃ X, forLoop n (fun i s => forLoop m (fun j s => { s with colors := f i j s }) s) s
      = { s with colors := X } := by
  induction n with
  | zero => exact ⟨s.colors, by simp [forLoop_zero]⟩
  | succ n ih =>
    obtain ⟨X, hX⟩ := ih
    obtain ⟨Y, hY⟩ := forLoop_colours m (f n) { s with colors := X }
    exact ⟨Y, by rw [forLoop_succ, hX, hY]⟩

theorem fillColours_eq (cfg : Config) (s : MainState) :
    ∃ X, fillColours cfg s = { s with colors := X } := by
  obtain ⟨X, hX⟩ := forLoop_colours2 cfg.N_DISCR cfg.N_DISCR
    (fun i j s =>
      s.colors.set (wrapInt (wrapInt ((i : Int) * (cfg.N_DISCR : Int)) + (j : Int))).toNat
        ((s.c.getD (wrapInt (wrapInt ((i : Int) * (cfg.N_DISCR : Int)) + (j : Int))).toNat
          none).map colourInit))
    { s with colors := List.replicate (fieldCount cfg.N_DISCR) none }
  exact ⟨X, hX⟩

theorem fillLoop_eq (env : Env) (n k : Nat) (hk : k ≤ n) (s : MainState) (hr : s.rands = 0) :
    forLoop k
        (fun i s =>
          { s with
            c := s.c.set i
              (some ((2 / 10 : ℚ) * ((env.rand s.rands : ℚ) / (env.RAND_MAX : ℚ)) - 1 / 10))
            rands := s.rands + 1 })
        { s with c := List.replicate n none }
      = { s with
          c := (List.range k).map (fun i => some (initialSample env i))
            ++ List.replicate (n - k) none
          rands := k } := by
  induction k with
  | zero => simp [forLoop_zero, hr]
  | succ k ih =>
    rw [forLoop_succ, ih (by omega)]
    obtain ⟨d, hd⟩ : ∃ d, n - k = d + 1 := ⟨n - k - 1, by omega⟩
    have hd' : n - (k + 1) = d := by omega
    simp [hd, hd', List.set_append, List.replicate_succ, List.range_succ, initialSample]

theorem fillInitial_eq (cfg : Config) (env : Env) (s : MainState) (hr : s.rands = 0) :
    fillInitial cfg env s
      = { s with c := initialField cfg env, rands := fieldCount cfg.N_DISCR } := by
  unfold fillInitial
  rw [fillLoop_eq env _ _ le_rfl s hr]
  simp [initialField]

/-- The state of `main` when it reaches the window loop. -/
theorem setup_eq (cfg : Config) (env : Env) :
    ∃ X, setup cfg env =
      { t := 0, skip := 10, dt := cfg.TIMESTEP, c := initialField cfg env, colors := X,
        cpu_time := env.cpu_time0, clkBegin := 0, clkEnd := 0,
        rands := fieldCount cfg.N_DISCR, clocks := 0, steps := 0, frames := 0,
        trace := [Call.init_window, Call.init_shaders,
          Call.init_solver (initialField cfg env) cfg.TIMESTEP] } := by
  unfold setup
  simp only []
  rw [fillInitial_eq _ _ _ rfl]
  obtain ⟨X, hX⟩ := fillColours_eq cfg
    (MainState.emit
      { t := 0, skip := 10, dt := cfg.TIMESTEP, c := initialField cfg env, colors := [],
        cpu_time := env.cpu_time0, clkBegin := 0, clkEnd := 0,
        rands := fieldCount cfg.N_DISCR, clocks := 0, steps := 0, frames := 0,
        trace := [Call.init_window, Call.init_shaders] }
      (Call.init_solver (initialField cfg env) cfg.TIMESTEP))
  exact ⟨X, by rw [hX]; simp [MainState.emit]⟩

theorem render_eq (cfg : Config) (s : MainState) :
    ∃ X, render cfg s = { s with
      colors := X
      trace := s.trace ++ [Call.glfwSwapBuffers, Call.glDrawElements (elementCount cfg.N_DISCR)] } := by
  obtain ⟨X, hX⟩ := updateColours_eq cfg (s.emit Call.glfwSwapBuffers)
  refine ⟨X, ?_⟩
  unfold render
  rw [hX]
  simp [MainState.emit]

/-- One iteration of the window loop, field by field. -/
theorem frame_eq (cfg : Config) (env : Env) (s : MainState) :
    ∃ X, frame cfg env s =
      { t := bumpT s.skip.toNat s.t, skip := s.skip, dt := s.dt,
        c := (env.solution (s.steps + s.skip.toNat)).map some, colors := X,
        cpu_time := s.cpu_time + ((env.clock (s.clocks + 1) - env.clock s.clocks : Int) : ℚ)
          / (env.CLOCKS_PER_SEC : ℚ) * 1000,
        clkBegin := env.clock s.clocks, clkEnd := env.clock (s.clocks + 1),
        rands := s.rands, clocks := s.clocks + 2, steps := s.steps + s.skip.toNat,
        frames := s.frames + 1,
        trace := s.trace ++ [Call.clock] ++ List.replicate s.skip.toNat (Call.step s.dt)
          ++ [Call.getSolution, Call.clock] ++ frameTail cfg env s } := by
  obtain ⟨X, hX⟩ := render_eq cfg
    (pollInput env (readEnd env (readSolution env (stepBatch (readBegin env s)))))
  refine ⟨X, ?_⟩
  unfold frame
  rw [hX]
  simp [printStatus, addCpuTime, pollInput, readEnd, readSolution, stepBatch_eq, readBegin,
    frameTail]

theorem bumpT_add (a b : Nat) (t : Int) : bumpT a (bumpT b t) = bumpT (b + a) t := by
  unfold bumpT
  rw [Nat.add_comm, Function.iterate_add_apply]

theorem setup_inv (cfg : Config) (env : Env) :
    LoopInv cfg env (setup cfg env) ∧ (setup cfg env).frames = 0 := by
  obtain ⟨X, hX⟩ := setup_eq cfg env
  rw [hX]
  refine ⟨⟨rfl, rfl, rfl, ?_, ?_, ?_, ?_⟩, rfl⟩
  · simp [bumpT]
  · simp
  · simp [solverCalls, Call.isSolver]
  · simp [Call.isPrintf]

theorem emit_test_inv (cfg : Config) (env : Env) (s : MainState) (h : LoopInv cfg env s) :
    LoopInv cfg env (s.emit Call.glfwWindowShouldClose) := by
  obtain ⟨h1, h2, h3, h4, h5, h6, h7⟩ := h
  refine ⟨h1, h2, h3, h4, h5, ?_, ?_⟩
  · simpa [MainState.emit, solverCalls, Call.isSolver] using h6
  · simpa [MainState.emit, Call.isPrintf] using h7

theorem frame_inv (cfg : Config) (env : Env) (s : MainState) (h : LoopInv cfg env s) :
    LoopInv cfg env (frame cfg env s) ∧ (frame cfg env s).frames = s.frames + 1 := by
  obtain ⟨h1, h2, h3, h4, h5, h6, h7⟩ := h
  obtain ⟨X, hX⟩ := frame_eq cfg env s
  rw [hX]
  have hskip : s.skip.toNat = 10 := by rw [h1]; rfl
  have ht : bumpT 10 s.t = bumpT (10 * (s.frames + 1)) 0 := by
    rw [h4, bumpT_add]
    congr 1
  have hc : s.cpu_time + ((env.clock (s.clocks + 1) - env.clock s.clocks : Int) : ℚ)
      / (env.CLOCKS_PER_SEC : ℚ) * 1000
      = env.cpu_time0 + Finset.sum (Finset.range (s.frames + 1)) (frameDuration env) := by
    rw [h5, Finset.sum_range_succ, h3]
    simp [frameDuration, add_assoc]
  refine ⟨⟨h1, h2, ?_, ?_, ?_, ?_, ?_⟩, rfl⟩
  · simp only [h3]
    ring
  · simp only [hskip, ht]
  · exact hc
  · simp only [hskip, h2, solverCalls, List.filter_append, frameTail] at h6 ⊢
    rw [h6]
    cases env.escPressed s.frames <;>
      simp [Call.isSolver, frameCalls, List.replicate_succ', List.filter_replicate]
  · simp only [hskip, h2, List.filter_append, frameTail, ht, hc] at h7 ⊢
    rw [h7]
    cases env.escPressed s.frames <;>
      simp [Call.isPrintf, printedStatus, List.range_succ, List.filter_replicate]

theorem windowLoop_run (cfg : Config) (env : Env) (k : Nat) :
    ∀ s : MainState, LoopInv cfg env s →
      (∀ i, i < k → env.windowShouldClose (s.frames + i) = false) →
      env.windowShouldClose (s.frames + k) = true →
      ∀ fuel, k < fuel →
        ∃ r, windowLoop cfg env fuel s = some r ∧ LoopInv cfg env r ∧ r.frames = s.frames + k := by
  induction k with
  | zero =>
    intro s hinv _ hclose fuel hfuel
    obtain ⟨f, rfl⟩ : ∃ f, fuel = f + 1 := ⟨fuel - 1, by omega⟩
    refine ⟨s.emit Call.glfwWindowShouldClose, ?_, emit_test_inv cfg env s hinv, rfl⟩
    have hc : env.windowShouldClose (s.emit Call.glfwWindowShouldClose).frames = true := by
      simpa [MainState.emit] using hclose
    simp [windowLoop, hc]
  | succ k ih =>
    intro s hinv hopen hclose fuel hfuel
    obtain ⟨f, rfl⟩ : ∃ f, fuel = f + 1 := ⟨fuel - 1, by omega⟩
    have h0 : env.windowShouldClose (s.emit Call.glfwWindowShouldClose).frames = false := by
      simpa [MainState.emit] using hopen 0 (Nat.succ_pos k)
    obtain ⟨hinv1, hfr⟩ := frame_inv cfg env _ (emit_test_inv cfg env s hinv)
    have hfr1 : (frame cfg env (s.emit Call.glfwWindowShouldClose)).frames = s.frames + 1 := by
      rw [hfr]
      rfl
    obtain ⟨r, hr, hri, hrf⟩ := ih (frame cfg env (s.emit Call.glfwWindowShouldClose)) hinv1
      (by
        intro i hi
        rw [hfr1, Nat.add_assoc, Nat.add_comm 1 i]
        exact hopen (i + 1) (by omega))
      (by
        rw [hfr1, Nat.add_assoc, Nat.add_comm 1 k]
        exact hclose)
      f (by omega)
    refine ⟨r, ?_, hri, ?_⟩
    · simp [windowLoop, h0, hr]
    · rw [hrf, hfr1]
      omega

/-- A run of `main` in which the window closes after `k` frames: what was printed and
which solver calls were made. -/
theorem main_run (cfg : Config) (env : Env) (k : Nat)
    (hopen : ∀ i, i < k → env.windowShouldClose i = false)
    (hclose : env.windowShouldClose k = true) (fuel : Nat) (hfuel : k < fuel) :
    ∃ s, main cfg env fuel = some s ∧ s.frames = k ∧ s.dt = cfg.TIMESTEP ∧
      solverCalls s.trace
        = Call.init_solver (initialField cfg env) cfg.TIMESTEP
            :: (List.replicate k (frameCalls cfg.TIMESTEP)).flatten ++ [Call.free_solver] ∧
      s.trace.filter Call.isPrintf = (List.range k).map (printedStatus cfg env) := by
  obtain ⟨hinv, hfr⟩ := setup_inv cfg env
  obtain ⟨r, hr, hri, hrf⟩ := windowLoop_run cfg env k (setup cfg env) hinv
    (by intro i hi; rw [hfr, Nat.zero_add]; exact hopen i hi)
    (by rw [hfr, Nat.zero_add]; exact hclose) fuel hfuel
  have hk : r.frames = k := by rw [hrf, hfr, Nat.zero_add]
  refine ⟨shutdown r, by simp [main, hr], hk, hri.dt_eq, ?_, ?_⟩
  · have h := hri.calls_eq
    rw [hk] at h
    simp only [shutdown, MainState.emit, solverCalls, List.filter_append] at h ⊢
    rw [h]
    simp [Call.isSolver]
  · have h := hri.prints_eq
    rw [hk] at h
    simp only [shutdown, MainState.emit, List.filter_append]
    rw [h]
    simp [Call.isPrintf]

/-! ## Lemmas on the solver -/

section SolverLemmas

variable {K : Type} [Field K]

theorem wavenumber_zero (N : Nat) : wavenumber N 0 = 0 := by
  unfold wavenumber
  split
  · rfl
  · omega

theorem waveSq_zero (B : Backend K) : waveSq B 0 0 = 0 := by
  simp [waveSq, wavenumber_zero]

theorem linearCoeff_zero (B : Backend K) : linearCoeff B 0 0 = 0 := by
  simp [linearCoeff, waveSq_zero]

theorem nonlinearTerm_zero_mode (B : Backend K) (c : Grid K) : nonlinearTerm B c 0 0 = 0 := by
  simp [nonlinearTerm, waveSq_zero]

/-- The zero mode of the forward transform is the sum of the samples. -/
theorem forward_zero_mode (B : Backend K) (f : Grid K) :
    forward B f 0 0 = ∑ m ∈ Finset.range B.N, ∑ n ∈ Finset.range B.N, f m n := by
  simp [forward]

/-- Geometric sum of a root of unity that is not 1. -/
theorem sum_pow_root (w : K) (N p : Nat) (hw : w ^ N = 1) (hp : w ^ p ≠ 1) :
    ∑ m ∈ Finset.range N, w ^ (p * m) = 0 := by
  have h := geom_sum_mul (w ^ p) N
  have h1 : (w ^ p) ^ N = 1 := by rw [← pow_mul, Nat.mul_comm, pow_mul, hw, one_pow]
  rw [h1, sub_self] at h
  have h2 : w ^ p - 1 ≠ 0 := sub_ne_zero.mpr hp
  have h3 := (mul_eq_zero.mp h).resolve_right h2
  simpa [pow_mul] using h3

/-- Sum of the kernel of the transform over the samples. -/
theorem sum_kernel (w : K) (N : Nat) (hw : w ^ N = 1)
    (hprim : ∀ p, 0 < p → p < N → w ^ p ≠ 1) (p : Nat) (hp : p < N) :
    ∑ m ∈ Finset.range N, w ^ (p * m) = if p = 0 then (N : K) else 0 := by
  split
  · next h => simp [h]
  · next h => exact sum_pow_root w N p hw (hprim p (Nat.pos_of_ne_zero h) hp)

/-- Summing the inverse kernel over all samples leaves only the zero mode. -/
theorem sum_modes (w : K) (N : Nat) (hw : w ^ N = 1)
    (hprim : ∀ p, 0 < p → p < N → w ^ p ≠ 1) (g : Grid K) :
    ∑ m ∈ Finset.range N, ∑ n ∈ Finset.range N,
        ∑ p ∈ Finset.range N, ∑ q ∈ Finset.range N, g p q * w ^ (p * m + q * n)
      = g 0 0 * ((N : K) * (N : K)) := by
  have reorder : ∑ m ∈ Finset.range N, ∑ n ∈ Finset.range N,
        ∑ p ∈ Finset.range N, ∑ q ∈ Finset.range N, g p q * w ^ (p * m + q * n)
      = ∑ p ∈ Finset.range N, ∑ q ∈ Finset.range N,
          g p q * ((∑ m ∈ Finset.range N, w ^ (p * m)) * (∑ n ∈ Finset.range N, w ^ (q * n))) := by
    calc ∑ m ∈ Finset.range N, ∑ n ∈ Finset.range N,
          ∑ p ∈ Finset.range N, ∑ q ∈ Finset.range N, g p q * w ^ (p * m + q * n)
        = ∑ m ∈ Finset.range N, ∑ p ∈ Finset.range N,
            ∑ n ∈ Finset.range N, ∑ q ∈ Finset.range N, g p q * w ^ (p * m + q * n) :=
          Finset.sum_congr rfl (fun m _ => Finset.sum_comm)
      _ = ∑ p ∈ Finset.range N, ∑ m ∈ Finset.range N,
            ∑ n ∈ Finset.range N, ∑ q ∈ Finset.range N, g p q * w ^ (p * m + q * n) :=
          Finset.sum_comm
      _ = ∑ p ∈ Finset.range N, ∑ m ∈ Finset.range N,
            ∑ q ∈ Finset.range N, ∑ n ∈ Finset.range N, g p q * w ^ (p * m + q * n) :=
          Finset.sum_congr rfl (fun p _ => Finset.sum_congr rfl (fun m _ => Finset.sum_comm))
      _ = ∑ p ∈ Finset.range N, ∑ q ∈ Finset.range N,
            ∑ m ∈ Finset.range N, ∑ n ∈ Finset.range N, g p q * w ^ (p * m + q * n) :=
          Finset.sum_congr rfl (fun p _ => Finset.sum_comm)
      _ = _ := by
          apply Finset.sum_congr rfl
          intro p _
          apply Finset.sum_congr rfl
          intro q _
          rw [Finset.sum_mul_sum, Finset.mul_sum]
          apply Finset.sum_congr rfl
          intro m _
          rw [Finset.mul_sum]
          apply Finset.sum_congr rfl
          intro n _
          rw [pow_add]
  rw [reorder]
  have inner : ∀ p ∈ Finset.range N, ∑ q ∈ Finset.range N,
      g p q * ((∑ m ∈ Finset.range N, w ^ (p * m)) * (∑ n ∈ Finset.range N, w ^ (q * n)))
        = if p = 0 then g 0 0 * ((N : K) * (N : K)) else 0 := by
    intro p hp
    have hp' := Finset.mem_range.mp hp
    rw [sum_kernel w N hw hprim p hp']
    split
    · next h =>
      subst h
      rw [Finset.sum_eq_single_of_mem 0 hp]
      · rw [sum_kernel w N hw hprim 0 hp']
        simp
      · intro q hq hq0
        rw [sum_kernel w N hw hprim q (Finset.mem_range.mp hq)]
        simp [hq0]
    · simp
  rw [Finset.sum_congr rfl inner]
  by_cases hN : 0 < N
  · rw [Finset.sum_eq_single_of_mem 0 (Finset.mem_range.mpr hN)]
    · simp
    · intro p _ hp0
      simp [hp0]
  · have : N = 0 := by omega
    subst this
    simp

theorem inv_root_pow (w : K) (N : Nat) (hw : w ^ N = 1)
    (hprim : ∀ p, 0 < p → p < N → w ^ p ≠ 1) :
    w⁻¹ ^ N = 1 ∧ ∀ p, 0 < p → p < N → w⁻¹ ^ p ≠ 1 := by
  constructor
  · rw [inv_pow, hw, inv_one]
  · intro p hp0 hpN h
    rw [inv_pow, inv_eq_one] at h
    exact hprim p hp0 hpN h

/-- The mean of an inverse transform is its zero mode divided by `N²`. -/
theorem mean_inverse (B : Backend K) (hw : B.root ^ B.N = 1)
    (hprim : ∀ p, 0 < p → p < B.N → B.root ^ p ≠ 1) (g : Grid K) :
    mean B (inverse B g) = g 0 0 / ((B.N : K) * (B.N : K)) := by
  obtain ⟨hw', hprim'⟩ := inv_root_pow B.root B.N hw hprim
  unfold mean inverse
  simp only [← Finset.sum_div]
  rw [sum_modes B.root⁻¹ B.N hw' hprim' g]
  by_cases hD : (B.N : K) * (B.N : K) = 0
  · simp [hD]
  · rw [mul_div_assoc, div_self hD, mul_one]

/-- The mean of a field is the zero mode of its forward transform divided by `N²`. -/
theorem mean_eq_zero_mode (B : Backend K) (f : Grid K) :
    mean B f = forward B f 0 0 / ((B.N : K) * (B.N : K)) := by
  rw [forward_zero_mode]
  rfl

end SolverLemmas

section SolverRun

variable {K : Type} [Field K]

theorem init_solver_tables (B : Backend K) (c0 : Grid K) (dt : K) :
    Tables B (init_solver B c0 dt) := by
  unfold init_solver
  cases h : B.scheme
  · exact ⟨rfl, fun h' => by rw [h] at h'; cases h'⟩
  · exact ⟨rfl, fun _ => by simp [linearCoeff_zero]⟩

theorem init_solver_c (B : Backend K) (c0 : Grid K) (dt : K) :
    (init_solver B c0 dt).c = c0 ∧ (init_solver B c0 dt).c_hat = forward B c0 := by
  unfold init_solver
  cases B.scheme <;> exact ⟨rfl, rfl⟩

theorem step_tables (B : Backend K) (s : SolverState K) (dt : K) (h : Tables B s) :
    Tables B (step B s dt) := by
  unfold step
  cases hs : B.scheme
  · exact ⟨h.L_eq, fun h' => by rw [hs] at h'; cases h'⟩
  · exact ⟨h.L_eq, fun _ => h.E_zero hs⟩

/-- After a step the physical-space field is the inverse transform of the spectral one. -/
theorem step_c (B : Backend K) (s : SolverState K) (dt : K) :
    (step B s dt).c = inverse B (step B s dt).c_hat := by
  unfold step
  cases B.scheme <;> rfl

theorem imex_zero_mode (B : Backend K) (s : SolverState K) (dt : K) (h : Tables B s) :
    (imex B s dt).c_hat 0 0 = s.c_hat 0 0 := by
  simp [imex, h.L_eq, linearCoeff_zero, nonlinearTerm_zero_mode]

theorem etdrk4_zero_mode (B : Backend K) (s : SolverState K) (dt : K)
    (hE : s.E 0 0 = 1) : (etdrk4 B s dt).c_hat 0 0 = s.c_hat 0 0 := by
  simp [etdrk4, non_linear_term, nonlinearTerm_zero_mode, hE]

/-- One step leaves the zero-wavenumber coefficient unchanged. -/
theorem step_zero_mode (B : Backend K) (s : SolverState K) (dt : K) (h : Tables B s)
    (hexp : B.scheme = SOLVER_TYPE.ETDRK4 → B.exp 0 = 1) :
    (step B s dt).c_hat 0 0 = s.c_hat 0 0 := by
  unfold step
  cases hs : B.scheme
  · exact imex_zero_mode B s dt h
  · exact etdrk4_zero_mode B s dt ((h.E_zero hs).trans (hexp hs))

theorem foldl_step_tables (B : Backend K) (dts : List K) :
    ∀ s : SolverState K, Tables B s → Tables B (dts.foldl (step B) s) := by
  induction dts with
  | nil => exact fun s h => h
  | cons d l ih => exact fun s h => ih _ (step_tables B s d h)

theorem foldl_step_zero_mode (B : Backend K)
    (hexp : B.scheme = SOLVER_TYPE.ETDRK4 → B.exp 0 = 1) (dts : List K) :
    ∀ s : SolverState K, Tables B s → (dts.foldl (step B) s).c_hat 0 0 = s.c_hat 0 0 := by
  induction dts with
  | nil => exact fun s _ => rfl
  | cons d l ih =>
    intro s h
    rw [List.foldl_cons, ih _ (step_tables B s d h), step_zero_mode B s d h hexp]

theorem solverRun_tables (B : Backend K) (c0 : Grid K) (dt0 : K) (dts : List K) :
    Tables B (solverRun B c0 dt0 dts) :=
  foldl_step_tables B dts _ (init_solver_tables B c0 dt0)

/-- After at least one step the physical-space field of a run is the inverse transform of
its spectral field; before the first step it is the initial field. -/
theorem solverRun_c (B : Backend K) (c0 : Grid K) (dt0 : K) (dts : List K) :
    (dts = [] ∧ (solverRun B c0 dt0 dts).c = c0) ∨
    (solverRun B c0 dt0 dts).c = inverse B (solverRun B c0 dt0 dts).c_hat := by
  rcases List.eq_nil_or_concat dts with h | ⟨l, d, h⟩
  · subst h
    exact Or.inl ⟨rfl, (init_solver_c B c0 dt0).1⟩
  · subst h
    right
    unfold solverRun
    rw [List.concat_eq_append, List.foldl_append]
    exact step_c B _ d

/-- A field that vanishes on the grid has a vanishing forward transform. -/
theorem forward_of_zero (B : Backend K) (f : Grid K)
    (hf : ∀ m n, m < B.N → n < B.N → f m n = 0) (p q : Nat) : forward B f p q = 0 := by
  unfold forward
  apply Finset.sum_eq_zero
  intro m hm
  apply Finset.sum_eq_zero
  intro n hn
  rw [hf m n (Finset.mem_range.mp hm) (Finset.mem_range.mp hn), zero_mul]

/-- A spectral field that vanishes on the grid has a vanishing inverse transform. -/
theorem inverse_of_zero (B : Backend K) (g : Grid K)
    (hg : ∀ p q, p < B.N → q < B.N → g p q = 0) (m n : Nat) : inverse B g m n = 0 := by
  unfold inverse
  rw [Finset.sum_eq_zero, zero_div]
  intro p hp
  apply Finset.sum_eq_zero
  intro q hq
  rw [hg p q (Finset.mem_range.mp hp) (Finset.mem_range.mp hq), zero_mul]

theorem nonlinearTerm_of_zero (B : Backend K) (c : Grid K)
    (hc : ∀ m n, m < B.N → n < B.N → c m n = 0) (p q : Nat) : nonlinearTerm B c p q = 0 := by
  unfold nonlinearTerm
  rw [forward_of_zero B _ (fun m n hm hn => by simp [hc m n hm hn]), mul_zero]

theorem non_linear_term_of_zero (B : Backend K) (g : Grid K)
    (hg : ∀ p q, g p q = 0) (p q : Nat) : non_linear_term B g p q = 0 :=
  nonlinearTerm_of_zero B _ (fun m n _ _ => inverse_of_zero B g (fun p q _ _ => hg p q) m n) p q

theorem step_zero_state (B : Backend K) (s : SolverState K) (dt : K) (h : ZeroState B s) :
    ZeroState B (step B s dt) := by
  obtain ⟨hc, hh⟩ := h
  have hnew : ∀ p q, (step B s dt).c_hat p q = 0 := by
    intro p q
    unfold step
    cases B.scheme
    · simp [imex, hh, nonlinearTerm_of_zero B s.c hc]
    · have hNc : ∀ p q, non_linear_term B s.c_hat p q = 0 :=
        non_linear_term_of_zero B _ hh
      have ha : ∀ p q, s.E2 p q * s.c_hat p q
          + dt / 2 * s.F1 p q * non_linear_term B s.c_hat p q = 0 := by
        intro p q
        rw [hh, hNc]
        ring
      have hNa := non_linear_term_of_zero B _ ha
      have hb : ∀ p q, s.E2 p q * s.c_hat p q + dt / 2 * s.F1 p q
          * non_linear_term B (fun p q => s.E2 p q * s.c_hat p q
              + dt / 2 * s.F1 p q * non_linear_term B s.c_hat p q) p q = 0 := by
        intro p q
        rw [hh, hNa]
        ring
      have hNb := non_linear_term_of_zero B _ hb
      have hc' : ∀ p q, s.E2 p q * (s.E2 p q * s.c_hat p q
            + dt / 2 * s.F1 p q * non_linear_term B s.c_hat p q)
          + dt / 2 * s.F1 p q * (2 * non_linear_term B (fun p q => s.E2 p q * s.c_hat p q
              + dt / 2 * s.F1 p q * non_linear_term B (fun p q => s.E2 p q * s.c_hat p q
                + dt / 2 * s.F1 p q * non_linear_term B s.c_hat p q) p q) p q
            - non_linear_term B s.c_hat p q) = 0 := by
        intro p q
        rw [ha, hNb, hNc]
        ring
      have hNc' := non_linear_term_of_zero B _ hc'
      simp only [etdrk4]
      rw [hh, hNc, hNa, hNb, hNc']
      ring
  refine ⟨?_, hnew⟩
  intro m n _ _
  rw [step_c]
  exact inverse_of_zero B _ (fun p q _ _ => hnew p q) m n

theorem foldl_step_zero_state (B : Backend K) (dts : List K) :
    ∀ s : SolverState K, ZeroState B s → ZeroState B (dts.foldl (step B) s) := by
  induction dts with
  | nil => exact fun s h => h
  | cons d l ih => exact fun s h => ih _ (step_zero_state B s d h)

end SolverRun

/-! ## C8: the element buffer -/

/-- C8, as stated, fails once `4*(N_DISCR-1)^2` exceeds the range of `int`: for
`N_DISCR = 23172` the cell `(23170, 23170)` has `4*ind_ = 2147580960 > INT_MAX`, and the
four slot expressions evaluate to negative numbers, outside the element buffer. -/
theorem elementsCell_overflow :
    2 ≤ 23172 ∧ 23170 < 23172 - 1 ∧
    (elementsCell 23172 23170 23170).map Prod.fst
      = [-2147386336, -2147386335, -2147386334, -2147386333] ∧
    (4 : Int) * (23170 * (23172 - 1) + 23170) = 2147580960 := by
  decide

/-- C8 (amended): for every `N_DISCR ≥ 2` with `4*(N_DISCR-1)^2 ≤ INT_MAX`, the stores of
cell `(i, j)` are `elements[4*ind_ + k]` for `k = 0..3` with the values `ind`, `ind+1`,
`ind+N_DISCR`, `ind+N_DISCR+1`, all four values are `< N_DISCR^2`, all four slots are
`< 4*(N_DISCR-1)^2`, the loop performs exactly the stores of its cells, and every slot
below `4*(N_DISCR-1)^2` is stored to exactly once. The colour buffer has
`N_DISCR*N_DISCR = N_DISCR^2` cells, one per vertex, so every stored value is the index of
a vertex. -/
theorem elements_cover (N : Nat) (hN : 2 ≤ N) (hfit : 4 * (N - 1) * (N - 1) ≤ 2147483647) :
    (∀ i j, i < N - 1 → j < N - 1 →
      elementsCell N i j =
        [ (((4 * (i * (N - 1) + j) : Nat) : Int), i * N + j),
          (((4 * (i * (N - 1) + j) + 1 : Nat) : Int), i * N + j + 1),
          (((4 * (i * (N - 1) + j) + 2 : Nat) : Int), i * N + j + N),
          (((4 * (i * (N - 1) + j) + 3 : Nat) : Int), i * N + j + N + 1) ] ∧
      i * N + j + N + 1 < N * N ∧ 4 * (i * (N - 1) + j) + 3 < 4 * (N - 1) * (N - 1)) ∧
    elementsLoop N
      = (List.range (N - 1)).flatMap (fun i => (List.range (N - 1)).flatMap (elementsCell N i)) ∧
    (elementsLoop N).length = 4 * (N - 1) * (N - 1) ∧
    (∀ s : Nat, s < 4 * (N - 1) * (N - 1) →
      ((elementsLoop N).map Prod.fst).count (s : Int) = 1) ∧
    fieldCount N = N * N := by
  obtain ⟨m, rfl⟩ : ∃ m, N = m + 1 := ⟨N - 1, by omega⟩
  simp only [Nat.add_sub_cancel] at hfit ⊢
  have hslots := elementsLoop_slots m hfit
  refine ⟨?_, elementsLoop_eq m hfit, ?_, ?_, ?_⟩
  · intro i j hi hj
    obtain ⟨b1, b2, _⟩ := cell_bounds m i j hi hj
    exact ⟨elementsCell_exact m i j hfit hi hj, b1, b2⟩
  · have h := congrArg List.length hslots
    simpa using h
  · intro s hs
    rw [hslots, List.count_map_of_injective _ _ Nat.cast_injective]
    exact List.count_eq_one_of_mem (List.nodup_range _) (List.mem_range.mpr hs)
  · obtain ⟨_, _, b3⟩ := cell_bounds m 0 0 (by omega) (by omega)
    have hsq : (m + 1) * (m + 1) ≤ 2147483647 := le_trans b3 hfit
    unfold fieldCount
    rw [← Nat.cast_mul, wrapInt_natCast hsq]
    exact Int.toNat_natCast _

/-- Witness of `elements_cover` for a grid of 3 x 3 points. -/
theorem elements_cover_witness :
    (2 ≤ 3 ∧ 4 * (3 - 1) * (3 - 1) ≤ 2147483647) ∧
    (elementsLoop 3).length = 4 * (3 - 1) * (3 - 1) :=
  ⟨by decide, (elements_cover 3 (by decide) (by decide)).2.2.1⟩

/-! ## C1, C2: the solver calls of `main` -/

/-- C1: when the window closes after `k` iterations of the window loop, `main` returns
(with any fuel above `k`), has run `k` frames, and its solver calls are, in order: one
`init_solver`, then `k` times (10 calls of `step`, then one `getSolution`), then one
`free_solver`. -/
theorem main_solver_calls (cfg : Config) (env : Env) (k : Nat)
    (hopen : ∀ i, i < k → env.windowShouldClose i = false)
    (hclose : env.windowShouldClose k = true) (fuel : Nat) (hfuel : k < fuel) :
    ∃ s buf, main cfg env fuel = some s ∧ s.frames = k ∧
      solverCalls s.trace
        = [Call.init_solver buf cfg.TIMESTEP]
          ++ (List.replicate k
                (List.replicate 10 (Call.step cfg.TIMESTEP) ++ [Call.getSolution])).flatten
          ++ [Call.free_solver] := by
  obtain ⟨s, hs, hk, _, hcalls, _⟩ := main_run cfg env k hopen hclose fuel hfuel
  exact ⟨s, initialField cfg env, hs, hk, by simpa [frameCalls] using hcalls⟩

/-- Witness of `main_solver_calls`: the window closes after two frames. -/
theorem main_solver_calls_witness :
    ∃ s buf, main uninitCfg { uninitEnv with windowShouldClose := fun n => decide (2 ≤ n) } 3
        = some s ∧ s.frames = 2 ∧
      solverCalls s.trace
        = [Call.init_solver buf uninitCfg.TIMESTEP]
          ++ (List.replicate 2
                (List.replicate 10 (Call.step uninitCfg.TIMESTEP) ++ [Call.getSolution])).flatten
          ++ [Call.free_solver] :=
  main_solver_calls uninitCfg { uninitEnv with windowShouldClose := fun n => decide (2 ≤ n) } 2
    (by intro i hi; simpa using hi) (by simp) 3 (by decide)

/-- C2: in a run of `main` of any number `k` of frames, the variable `dt` still holds
`TIMESTEP` at the end, and `init_solver` and every `step` were called with `TIMESTEP`. -/
theorem main_step_size (cfg : Config) (env : Env) (k : Nat)
    (hopen : ∀ i, i < k → env.windowShouldClose i = false)
    (hclose : env.windowShouldClose k = true) (fuel : Nat) (hfuel : k < fuel) :
    ∃ s, main cfg env fuel = some s ∧ s.dt = cfg.TIMESTEP ∧
      ∀ e, e ∈ s.trace →
        (∀ d, e = Call.step d → d = cfg.TIMESTEP) ∧
        (∀ b d, e = Call.init_solver b d → d = cfg.TIMESTEP) := by
  obtain ⟨s, hs, _, hdt, hcalls, _⟩ := main_run cfg env k hopen hclose fuel hfuel
  refine ⟨s, hs, hdt, ?_⟩
  have key : ∀ e, e ∈ s.trace → e.isSolver = true →
      e = Call.init_solver (initialField cfg env) cfg.TIMESTEP ∨ e = Call.step cfg.TIMESTEP ∨
        e = Call.getSolution ∨ e = Call.free_solver := by
    intro e he hsol
    have hmem : e ∈ solverCalls s.trace := List.mem_filter.mpr ⟨he, hsol⟩
    rw [hcalls] at hmem
    simp only [List.cons_append, List.mem_cons, List.mem_append, List.mem_flatten,
      List.mem_replicate, List.mem_singleton, List.not_mem_nil, or_false] at hmem
    rcases hmem with h | ⟨l, ⟨_, rfl⟩, hl⟩ | h
    · exact Or.inl h
    · simp only [frameCalls, List.mem_append, List.mem_replicate, List.mem_singleton] at hl
      rcases hl with ⟨_, h⟩ | h
      · exact Or.inr (Or.inl h)
      · exact Or.inr (Or.inr (Or.inl h))
    · exact Or.inr (Or.inr (Or.inr h))
  intro e he
  constructor
  · intro d hd
    subst hd
    rcases key _ he rfl with h | h | h | h
    · cases h
    · cases h; rfl
    · cases h
    · cases h
  · intro b d hd
    subst hd
    rcases key _ he rfl with h | h | h | h
    · exact (Call.init_solver.inj h).2
    · cases h
    · cases h
    · cases h

/-- Witness of `main_step_size`: the window closes after one frame. -/
theorem main_step_size_witness :
    ∃ s, main uninitCfg uninitEnv 2 = some s ∧ s.dt = uninitCfg.TIMESTEP ∧
      ∀ e, e ∈ s.trace →
        (∀ d, e = Call.step d → d = uninitCfg.TIMESTEP) ∧
        (∀ b d, e = Call.init_solver b d → d = uninitCfg.TIMESTEP) :=
  main_step_size uninitCfg uninitEnv 1
    (by intro i hi; simp [uninitEnv]; omega) (by simp [uninitEnv]) 2 (by decide)

/-! ## C6: the initial field -/

/-- C6: when `main` calls `init_solver`, every one of the `N_DISCR*N_DISCR` cells of the
buffer it passes has been written, cell `i` holds `0.2*(r/RAND_MAX) - 0.1` for an integer
`r` with `0 ≤ r ≤ RAND_MAX` (the result of a call of `rand()`), and this value lies in
`[-0.1, 0.1]`, hence in `[-1, 1]`. No solver call precedes this `init_solver`. -/
theorem initial_field_written (cfg : Config) (env : Env) (hR : 0 < env.RAND_MAX)
    (hrand : ∀ n, env.rand n ≤ env.RAND_MAX) :
    ∃ buf, solverCalls (setup cfg env).trace = [Call.init_solver buf cfg.TIMESTEP] ∧
      buf.length = fieldCount cfg.N_DISCR ∧
      ∀ i, i < fieldCount cfg.N_DISCR →
        ∃ r : Nat, r ≤ env.RAND_MAX ∧
          buf[i]? = some (some ((2 / 10 : ℚ) * ((r : ℚ) / (env.RAND_MAX : ℚ)) - 1 / 10)) ∧
          -(1 / 10 : ℚ) ≤ (2 / 10 : ℚ) * ((r : ℚ) / (env.RAND_MAX : ℚ)) - 1 / 10 ∧
          (2 / 10 : ℚ) * ((r : ℚ) / (env.RAND_MAX : ℚ)) - 1 / 10 ≤ 1 / 10 ∧
          (-1 : ℚ) ≤ (2 / 10 : ℚ) * ((r : ℚ) / (env.RAND_MAX : ℚ)) - 1 / 10 ∧
          (2 / 10 : ℚ) * ((r : ℚ) / (env.RAND_MAX : ℚ)) - 1 / 10 ≤ 1 := by
  refine ⟨initialField cfg env, (setup_inv cfg env).1.calls_eq.trans (by simp [(setup_inv cfg env).2]),
    by simp [initialField], ?_⟩
  intro i hi
  have hpos : (0 : ℚ) < (env.RAND_MAX : ℚ) := by exact_mod_cast hR
  have h0 : (0 : ℚ) ≤ (env.rand i : ℚ) / (env.RAND_MAX : ℚ) :=
    div_nonneg (Nat.cast_nonneg _) (Nat.cast_nonneg _)
  have h1 : (env.rand i : ℚ) / (env.RAND_MAX : ℚ) ≤ 1 := by
    rw [div_le_one hpos]
    exact_mod_cast hrand i
  refine ⟨env.rand i, hrand i, ?_, ?_, ?_, ?_, ?_⟩
  · simp [initialField, initialSample, hi]
  all_goals linarith

/-- Witness of `initial_field_written`: `rand()` always returns 0 and `RAND_MAX = 32767`. -/
theorem initial_field_written_witness :
    (0 < uninitEnv.RAND_MAX ∧ ∀ n, uninitEnv.rand n ≤ uninitEnv.RAND_MAX) ∧
    ∃ buf, solverCalls (setup uninitCfg uninitEnv).trace
        = [Call.init_solver buf uninitCfg.TIMESTEP] ∧
      buf.length = fieldCount uninitCfg.N_DISCR :=
  ⟨⟨by simp [uninitEnv], fun _ => Nat.zero_le _⟩,
    (initial_field_written uninitCfg uninitEnv (by simp [uninitEnv]) (fun _ => Nat.zero_le _)).imp
      (fun _ h => ⟨h.1, h.2.1⟩)⟩

/-! ## C7: the printed average -/

/-- C7 fails on the code: `cpu_time` is declared without an initialiser, so the printed
average is `(initial content + sum of the frame durations) / t`. In the run `uninitEnv`
(one frame, every `clock()` reading 0, initial content 1) the first status print shows
`1/10`, while the sum of the measured durations divided by `t = 10` is `0`. -/
theorem avg_cpu_time_uninitialised :
    ∃ s, main uninitCfg uninitEnv 2 = some s ∧ s.frames = 1 ∧
      s.trace.filter Call.isPrintf = [Call.printf 10 (1 / 10) (1 / 10)] ∧
      Finset.sum (Finset.range 1) (frameDuration uninitEnv) / (10 : ℚ) = 0 := by
  obtain ⟨s, hs, hk, _, _, hp⟩ := main_run uninitCfg uninitEnv 1
    (by intro i hi; simp [uninitEnv]; omega) (by simp [uninitEnv]) 2 (by decide)
  refine ⟨s, hs, hk, ?_, ?_⟩
  · rw [hp]
    have ht : bumpT (10 * (0 + 1)) 0 = 10 := by decide
    simp only [List.range_succ, List.range_zero, List.nil_append, List.map_cons, List.map_nil,
      printedStatus, ht]
    simp [frameDuration, uninitEnv, uninitCfg]
    norm_num
  · simp [frameDuration, uninitEnv]

/-! ## C9: the colour map -/

/-- C9: the colour of the render loop, `(c - c_min) / (c_max - c_min)` with `c_min = -1`
and `c_max = 1`, equals the colour at start-up, `(c + 1) / 2`; the map is strictly
increasing, sends `-1` to `0` and `1` to `1`, and `c` lies in `[-1, 1]` if and only if
its colour lies in `[0, 1]`. -/
theorem colourRender_eq_colourInit :
    (∀ c : ℚ, colourRender c = colourInit c) ∧
    StrictMono colourInit ∧ StrictMono colourRender ∧
    colourInit (-1) = 0 ∧ colourInit 1 = 1 ∧
    (∀ c : ℚ, (-1 ≤ c ∧ c ≤ 1) ↔ (0 ≤ colourInit c ∧ colourInit c ≤ 1)) := by
  have heq : ∀ c : ℚ, colourRender c = colourInit c := by
    intro c
    simp only [colourRender, colourInit, c_min, c_max]
    norm_num
  have hmono : StrictMono colourInit := by
    intro a b hab
    simp only [colourInit]
    linarith
  refine ⟨heq, hmono, ?_, ?_, ?_, ?_⟩
  · intro a b hab
    rw [heq, heq]
    exact hmono hab
  · simp [colourInit]
  · simp [colourInit]
  · intro c
    simp only [colourInit]
    constructor
    · rintro ⟨h1, h2⟩
      constructor <;> linarith
    · rintro ⟨h1, h2⟩
      constructor <;> linarith

/-! ## C3, C4, C5: the solver -/

section SolverClaims

variable {K : Type} [Field K]

/-- C3: for either scheme, every initial field and every sequence of `step` calls, the
spatial mean of the field returned by `getSolution` equals the spatial mean of the initial
field; the zero-wavenumber coefficient after the run is the one `init_solver` computed,
and one more step leaves it unchanged. -/
theorem mass_conserved (B : Backend K) (hroot : B.root ^ B.N = 1)
    (hprim : ∀ p, 0 < p → p < B.N → B.root ^ p ≠ 1) (hexp : B.exp 0 = 1)
    (c0 : Grid K) (dt0 : K) (dts : List K) :
    mean B (getSolution (solverRun B c0 dt0 dts)) = mean B c0 ∧
    (solverRun B c0 dt0 dts).c_hat 0 0 = (init_solver B c0 dt0).c_hat 0 0 ∧
    ∀ dt, (step B (solverRun B c0 dt0 dts) dt).c_hat 0 0 = (solverRun B c0 dt0 dts).c_hat 0 0 := by
  have hrun : (solverRun B c0 dt0 dts).c_hat 0 0 = (init_solver B c0 dt0).c_hat 0 0 :=
    foldl_step_zero_mode B (fun _ => hexp) dts _ (init_solver_tables B c0 dt0)
  refine ⟨?_, hrun, fun dt =>
    step_zero_mode B _ dt (solverRun_tables B c0 dt0 dts) (fun _ => hexp)⟩
  unfold getSolution
  rcases solverRun_c B c0 dt0 dts with ⟨_, h⟩ | h
  · rw [h]
  · rw [h, mean_inverse B hroot hprim, hrun, (init_solver_c B c0 dt0).2, mean_eq_zero_mode]

/-- C4: one `imex` step, taken in any state that `init_solver` and later steps produce,
replaces the coefficient of every mode `(p, q)` by `(c_hat + dt * N_hat) / (1 - dt * L)`
with `L = -(kx²+ky²) * ((kx²+ky²) - 1)`, where `N_hat` is the nonlinear term of the
physical-space field before the step, `(kx²+ky²)` times the transform of its cube. -/
theorem imex_update (B : Backend K) (c0 : Grid K) (dt0 : K) (dts : List K) (dt : K)
    (p q : Nat) :
    (imex B (solverRun B c0 dt0 dts) dt).c_hat p q
      = ((solverRun B c0 dt0 dts).c_hat p q
          + dt * nonlinearTerm B (getSolution (solverRun B c0 dt0 dts)) p q)
        / (1 - dt * (-(((wavenumber B.N p : Int) : K) ^ 2 + ((wavenumber B.N q : Int) : K) ^ 2)
            * ((((wavenumber B.N p : Int) : K) ^ 2 + ((wavenumber B.N q : Int) : K) ^ 2) - 1))) ∧
    nonlinearTerm B (getSolution (solverRun B c0 dt0 dts)) p q
      = (((wavenumber B.N p : Int) : K) ^ 2 + ((wavenumber B.N q : Int) : K) ^ 2)
        * forward B (fun m n => getSolution (solverRun B c0 dt0 dts) m n ^ 3) p q := by
  refine ⟨?_, rfl⟩
  simp only [imex, getSolution, (solverRun_tables B c0 dt0 dts).L_eq, linearCoeff, waveSq]

/-- C5: if the initial field is zero at every grid point, then for either scheme and every
sequence of `step` calls the field returned by `getSolution` is zero at every grid
point. -/
theorem zero_field_fixed (B : Backend K) (c0 : Grid K)
    (hzero : ∀ m n, m < B.N → n < B.N → c0 m n = 0) (dt0 : K) (dts : List K) :
    ∀ m n, m < B.N → n < B.N → getSolution (solverRun B c0 dt0 dts) m n = 0 := by
  have h0 : ZeroState B (init_solver B c0 dt0) := by
    obtain ⟨hc, hh⟩ := init_solver_c B c0 dt0
    refine ⟨?_, ?_⟩
    · rw [hc]
      exact hzero
    · rw [hh]
      exact forward_of_zero B c0 hzero
  exact (foldl_step_zero_state B dts _ h0).1

end SolverClaims

/-- Witness of `mass_conserved`: ETDRK4 on the 2 × 2 grid over `ℚ`, two steps. -/
theorem mass_conserved_witness :
    ((sampleBackend SOLVER_TYPE.ETDRK4).root ^ (sampleBackend SOLVER_TYPE.ETDRK4).N = 1 ∧
      (∀ p, 0 < p → p < (sampleBackend SOLVER_TYPE.ETDRK4).N →
        (sampleBackend SOLVER_TYPE.ETDRK4).root ^ p ≠ 1) ∧
      (sampleBackend SOLVER_TYPE.ETDRK4).exp 0 = 1) ∧
    mean (sampleBackend SOLVER_TYPE.ETDRK4)
        (getSolution (solverRun (sampleBackend SOLVER_TYPE.ETDRK4)
          (fun m n => if m = 0 ∧ n = 0 then 1 / 20 else 0) (1 / 100) [1 / 100, 1 / 100]))
      = mean (sampleBackend SOLVER_TYPE.ETDRK4) (fun m n => if m = 0 ∧ n = 0 then 1 / 20 else 0) :=
  have h1 : (sampleBackend SOLVER_TYPE.ETDRK4).root ^ (sampleBackend SOLVER_TYPE.ETDRK4).N = 1 := by
    norm_num [sampleBackend]
  have h2 : ∀ p, 0 < p → p < (sampleBackend SOLVER_TYPE.ETDRK4).N →
      (sampleBackend SOLVER_TYPE.ETDRK4).root ^ p ≠ 1 := by
    intro p hp0 hp2
    have hp : p = 1 := by
      simp only [sampleBackend] at hp2
      omega
    subst hp
    norm_num [sampleBackend]
  have h3 : (sampleBackend SOLVER_TYPE.ETDRK4).exp 0 = 1 := by
    norm_num [sampleBackend]
  ⟨⟨h1, h2, h3⟩, (mass_conserved (sampleBackend SOLVER_TYPE.ETDRK4) h1 h2 h3 _ _ _).1⟩

/-- Witness of `zero_field_fixed`: IMEX on the 2 × 2 grid over `ℚ`, three steps. -/
theorem zero_field_fixed_witness :
    (∀ m n, m < (sampleBackend SOLVER_TYPE.IMEX).N → n < (sampleBackend SOLVER_TYPE.IMEX).N →
      (fun _ _ => (0 : ℚ)) m n = 0) ∧
    getSolution (solverRun (sampleBackend SOLVER_TYPE.IMEX) (fun _ _ => (0 : ℚ)) (1 / 100)
      [1 / 100, 1 / 100, 1 / 100]) 1 1 = 0 :=
  ⟨fun _ _ _ _ => rfl,
    zero_field_fixed (sampleBackend SOLVER_TYPE.IMEX) (fun _ _ => (0 : ℚ)) (fun _ _ _ _ => rfl)
      (1 / 100) [1 / 100, 1 / 100, 1 / 100] 1 1 (by decide) (by decide)⟩

end CahnHilliard
